import Mathlib

/-!
# Verification of a redux-style state container

Shallow embedding of the repository's four source files:

* `src/utils/isPlainObject.js` — the plain-record detector;
* `src/combineReducers.js` — reducer composition;
* `createStore.js` (the unnamed source file) — the store: `getState`,
  `subscribe`/`unsubscribe`, `dispatch`, construction;
* `src/bindActionCreators.js` — the action-creator binder.

JavaScript values are modelled by `JSVal`: primitives carry their value,
functions and objects carry a numeric reference id, and an object carries its
prototype chain (the ids of the objects above it, ending just before `null`)
together with its own enumerable fields.  Lean equality on reference ids
models the JavaScript `===` comparison on object references; field values are
primitives, which is all the modelled code paths ever read from an object.
-/

/-- A JavaScript primitive value.  `NaN` is not modelled (numbers are
integers); none of the verified code paths produce or test `NaN`. -/
inductive JSPrim where
  | undefinedV
  | null
  | boolean (b : Bool)
  | number (n : Int)
  | str (s : String)
deriving DecidableEq, Repr

/-- A JavaScript object: a reference id, the prototype chain above the object
(ids of the prototype objects, in order, ending just before `null`; `[]`
means the object's prototype is `null`), and its own enumerable fields.
Field values are primitives: the store and combinator only ever read the
`type` field of an action, which is a primitive in the modelled scenarios. -/
structure JSObject where
  id : Nat
  proto : List Nat
  fields : List (String × JSPrim)
deriving DecidableEq, Repr

/-- A JavaScript value as seen by the verified code. -/
inductive JSVal where
  | prim (p : JSPrim)
  | func (id : Nat)
  | object (o : JSObject)
deriving DecidableEq, Repr

/-- The JavaScript `typeof` operator on a `JSVal`. -/
def JSVal.typeofStr : JSVal → String
  | .prim .undefinedV => "undefined"
  | .prim .null => "object"
  | .prim (.boolean _) => "boolean"
  | .prim (.number _) => "number"
  | .prim (.str _) => "string"
  | .func _ => "function"
  | .object _ => "object"

/-- JavaScript truthiness of a primitive. -/
def JSPrim.truthy : JSPrim → Bool
  | .undefinedV => false
  | .null => false
  | .boolean b => b
  | .number n => n != 0
  | .str s => s != ""

/-- JavaScript truthiness of a value. -/
def JSVal.truthy : JSVal → Bool
  | .prim p => p.truthy
  | .func _ => true
  | .object _ => true

/-- JavaScript `String(p)` on a primitive. -/
def JSPrim.jsToString : JSPrim → String
  | .undefinedV => "undefined"
  | .null => "null"
  | .boolean b => if b then "true" else "false"
  | .number n => toString n
  | .str s => s

/-- Property read `v[k]`: `undefined` on primitives and functions, field
lookup on objects (absent fields read as `undefined`). -/
def JSVal.getField (v : JSVal) (k : String) : JSPrim :=
  match v with
  | .object o => ((o.fields.find? (fun e => e.1 == k)).map (·.2)).getD .undefinedV
  | _ => .undefinedV

/-!
## `src/utils/isPlainObject.js`

```js
export default function isPlainObject(obj) {
  if (typeof obj !== 'object' || obj === null) return false
  let proto = obj
  while (Object.getPrototypeOf(proto) !== null) {
    proto = Object.getPrototypeOf(proto)
  }
  return Object.getPrototypeOf(obj) === proto
}
```
-/

/-- The `while` loop of `isPlainObject`: starting from the object with id `i`
whose prototype chain above it is `l`, climb `Object.getPrototypeOf` until it
would be `null`, and return the id of the object reached (the root of the
chain, or the object itself when its own prototype is `null`). -/
def protoWalk (i : Nat) : List Nat → Nat
  | [] => i
  | j :: rest => protoWalk j rest

/-- `isPlainObject` from `src/utils/isPlainObject.js`: reject values that are
not of `typeof` `"object"` and `null` itself, then compare the object's own
prototype (`Object.getPrototypeOf(obj)`, which is `null` when the chain is
empty) with the root found by the walk.  The comparison is JavaScript `===`
on object references, i.e. id equality; `null === root-object` is false. -/
def isPlainObject (v : JSVal) : Bool :=
  if v.typeofStr ≠ "object" || v = .prim .null then false
  else
    match v with
    | .object o =>
      let root := protoWalk o.id o.proto
      match o.proto.head? with
      | none => false
      | some p => p == root
    | _ => false

theorem protoWalk_eq_getLastD (i : Nat) (l : List Nat) :
    protoWalk i l = l.getLastD i := by
  induction l generalizing i with
  | nil => rfl
  | cons j rest ih =>
    rw [protoWalk, List.getLastD_cons]
    exact ih j

/-- C4 counterexample input: an object created with a null prototype. -/
def nullProtoObject : JSVal := .object ⟨0, [], []⟩

theorem getLastD_mem_cons (a : Nat) (l : List Nat) (d : Nat) :
    (a :: l).getLastD d ∈ a :: l := by
  induction l generalizing a d with
  | nil => simp [List.getLastD]
  | cons b bs ih =>
    rw [List.getLastD_cons]
    exact List.mem_cons_of_mem a (ih b a)

/-- **C4** (amended): over values whose prototype chain is duplicate-free (as
every JavaScript prototype chain is, being acyclic), `isPlainObject` returns
true exactly for objects whose prototype chain above them has length one,
i.e. whose immediate prototype is the root of their chain (record literals).
In particular it returns false for `null`, primitives, functions, arrays and
class instances (chain length two or more) — and, contrary to the claim,
also for objects with a null prototype (empty chain). -/
theorem isPlainObject_characterization (v : JSVal)
    (hnd : ∀ o, v = .object o → o.proto.Nodup) :
    isPlainObject v = true ↔ ∃ o, v = .object o ∧ o.proto.length = 1 := by
  cases v with
  | prim p => cases p <;> simp [isPlainObject, JSVal.typeofStr]
  | func i => simp [isPlainObject, JSVal.typeofStr]
  | object o =>
    obtain ⟨i, proto, fields⟩ := o
    cases proto with
    | nil => simp [isPlainObject, JSVal.typeofStr]
    | cons p rest =>
      cases rest with
      | nil =>
        simp [isPlainObject, JSVal.typeofStr, protoWalk]
      | cons q rest2 =>
        have hnd' : (p :: q :: rest2).Nodup := hnd ⟨i, p :: q :: rest2, fields⟩ rfl
        have hmem : (q :: rest2).getLastD i ∈ q :: rest2 := getLastD_mem_cons q rest2 i
        have hne : ¬ p = (q :: rest2).getLast?.getD i := by
          rw [← List.getLastD_eq_getLast?]
          intro h
          exact (List.nodup_cons.mp hnd').1 (h ▸ hmem)
        simp [isPlainObject, JSVal.typeofStr, protoWalk_eq_getLastD, hne]

/-- **C4 counterexample**: the claim states that `isPlainObject` returns true
for every object created with a null prototype; on the code it returns false
(the walk leaves `proto` at the object itself, and
`Object.getPrototypeOf(obj) === proto` compares `null` with that object). -/
theorem isPlainObject_nullProto_claim_false :
    isPlainObject nullProtoObject = false := by rfl

/-- Witness for C4: the characterization applied to a record literal
(an object whose chain is exactly the root object prototype). -/
theorem isPlainObject_characterization_witness :
    isPlainObject (.object ⟨1, [0], []⟩) = true ↔
      ∃ o, JSVal.object ⟨1, [0], []⟩ = .object o ∧ o.proto.length = 1 :=
  isPlainObject_characterization (.object ⟨1, [0], []⟩)
    (by intro o h; cases h; simp)

/-!
## `src/combineReducers.js`

Sub-state slices are modelled by their reference id (a `Nat`); Lean equality
on ids models JavaScript `===`/`!==` on slice values, and `none` models the
absent sentinel `undefined`.  A composite state record carries its own
reference id and its fields.  Throwing is modelled by `Except String`; the
`try/catch` around `assertReducerShape` is modelled by storing the validation
outcome in `shapeAssertionError`.  The `process.env.NODE_ENV` warning blocks
are diagnostic output with no effect on control flow or return values and
are not modelled.
-/

namespace Combine

/-- A sub-reducer `(state, action) => state`: slice in, slice out, with
`none` the absent sentinel `undefined`. -/
def SubReducer := Option Nat → JSVal → Option Nat

/-- A value in the mapping passed to `combineReducers`: either a function
(a sub-reducer) or a non-function value (dropped by the filter loop). -/
inductive RVal where
  | fn (r : SubReducer)
  | notFn (v : JSPrim)

/-- A composite state record: its reference id and its own fields, each field
holding a defined slice reference. -/
structure CRecord where
  ref : Nat
  fields : List (String × Nat)
deriving DecidableEq, Repr

/-- `state[key]`: `none` models reading `undefined` for an absent key. -/
def CRecord.get (s : CRecord) (k : String) : Option Nat :=
  (s.fields.find? (fun e => e.1 == k)).map (·.2)

/-- Modelled from the spec: `src/utils/actionTypes.js` is not among the
sources.  Per the spec there are "Private action-type constants … an
initialization action dispatched once at construction, a reducer-replacement
action dispatched on `replaceReducer`, and an unguessable probe action type
generated fresh per validation call".  The unguessable random suffixes are
not modelled: `INIT` is a fixed string and the probe type is passed as an
explicit parameter wherever the code would generate it. -/
def ActionTypes.INIT : String := "@@redux/INIT"

/-- Modelled from the spec (see `ActionTypes.INIT`): the reducer-replacement
action type. -/
def ActionTypes.REPLACE : String := "@@redux/REPLACE"

/-- The action literal `{ type: t }` built by the validator and the store. -/
def mkTypeAction (t : String) : JSVal := .object ⟨1, [0], [("type", .str t)]⟩

/-- `{ type: ActionTypes.INIT }`. -/
def initAction : JSVal := mkTypeAction ActionTypes.INIT

/-- `{ type: ActionTypes.PROBE_UNKNOWN_ACTION() }` with the freshly generated
type string passed in as `probe`. -/
def probeAction (probe : String) : JSVal := mkTypeAction probe

/-- The error message thrown when a reducer returns `undefined` for the
initialization probe. -/
def undefinedInitMessage (key : String) : String :=
  "Reducer \"" ++ key ++ "\" returned undefined during initialization. " ++
  "If the state passed to the reducer is undefined, you must " ++
  "explicitly return the initial state. The initial state may " ++
  "not be undefined. If you don't want to set a value for this reducer, " ++
  "you can use null instead of undefined."

/-- The error message thrown when a reducer returns `undefined` for the
unknown-type probe (the source interpolates `ActionTypes.INIT` here). -/
def undefinedProbeMessage (key : String) : String :=
  "Reducer \"" ++ key ++ "\" returned undefined when probed with a random type. " ++
  "Don't try to handle " ++ ActionTypes.INIT ++ " or other actions in \"redux/*\" " ++
  "namespace. They are considered private. Instead, you must return the " ++
  "current state for any unknown actions, unless it is undefined, " ++
  "in which case you must return the initial state, regardless of the " ++
  "action type. The initial state may not be undefined, but can be null."

/-- `assertReducerShape(reducers)`: probe every reducer with the INIT action
and then with the fresh unknown type; the first `undefined` result throws —
modelled by returning `some message` (a throw inside `forEach` aborts the
iteration and propagates). -/
def assertReducerShape (probe : String) : List (String × SubReducer) → Option String
  | [] => none
  | (key, reducer) :: rest =>
    if reducer none initAction = none then some (undefinedInitMessage key)
    else if reducer none (probeAction probe) = none then some (undefinedProbeMessage key)
    else assertReducerShape probe rest

/-- The data captured by the closure `combineReducers` returns: the filtered
mapping and the stored validation outcome. -/
structure Combined where
  finalReducers : List (String × SubReducer)
  shapeAssertionError : Option String

/-- The body of the copy loop in `combineReducers`: keep an entry when its
value is a function, drop it otherwise. -/
def keepFn : String × RVal → Option (String × SubReducer)
  | (key, .fn r) => some (key, r)
  | (_, .notFn _) => none

/-- `combineReducers(reducers)`: copy the function-valued entries into
`finalReducers` (non-functions are dropped), then run the shape assertion,
catching its error into `shapeAssertionError`.  `combineReducers` itself
never throws: the model is a total function. -/
def combineReducers (probe : String) (reducers : List (String × RVal)) : Combined :=
  let finalReducers := reducers.filterMap keepFn
  { finalReducers := finalReducers
    shapeAssertionError := assertReducerShape probe finalReducers }

/-- JavaScript `String(v)` as needed by `getUndefinedStateErrorMessage`
(only ever applied to a truthy `action.type`, which is a primitive in the
model; the other branches are approximations and unreachable there). -/
def JSVal.jsToStringV : JSVal → String
  | .prim p => p.jsToString
  | .func _ => "function"
  | .object _ => "[object Object]"

/-- `getUndefinedStateErrorMessage(key, action)`:
`actionType = action && action.type`, then
`(actionType && 'action "…"') || 'an action'`. -/
def getUndefinedStateErrorMessage (key : String) (action : JSVal) : String :=
  let actionType : JSVal :=
    if action.truthy then .prim (action.getField "type") else action
  let actionDescription : String :=
    if actionType.truthy then "action \"" ++ JSVal.jsToStringV actionType ++ "\""
    else "an action"
  "Given " ++ actionDescription ++ ", reducer \"" ++ key ++ "\" returned undefined. " ++
  "To ignore an action, you must explicitly return the previous state. " ++
  "If you want this reducer to hold no value, you can return null instead of undefined."

/-- The `for` loop of `combination`: fan the action out to every retained
sub-reducer in order, accumulating the fields of `nextState` and the
`hasChanged` flag; a sub-reducer returning the absent sentinel throws. -/
def combinationLoop (state : CRecord) (action : JSVal) :
    List (String × SubReducer) → Except String (List (String × Nat) × Bool)
  | [] => .ok ([], false)
  | (key, reducer) :: rest =>
    let previousStateForKey := state.get key
    match reducer previousStateForKey action with
    | none => .error (getUndefinedStateErrorMessage key action)
    | some v =>
      match combinationLoop state action rest with
      | .error e => .error e
      | .ok (fs, hasChanged) =>
          .ok ((key, v) :: fs, hasChanged || (some v != previousStateForKey))

/-- `combination(state = {}, action)`: re-raise the stored shape error if any;
otherwise run the loop and return the freshly built `nextState` when
`hasChanged`, else the original `state` reference.  `defaultRef` is the
reference id the engine would give the default `{}` parameter (used only when
`state` is `undefined`), `nextRef` the id of the freshly allocated
`nextState` record. -/
def combination (c : Combined) (defaultRef nextRef : Nat)
    (state : Option CRecord) (action : JSVal) : Except String CRecord :=
  match c.shapeAssertionError with
  | some e => .error e
  | none =>
    let st : CRecord :=
      match state with
      | none => ⟨defaultRef, []⟩
      | some s => s
    match combinationLoop st action c.finalReducers with
    | .error e => .error e
    | .ok (fs, hasChanged) => .ok (if hasChanged then ⟨nextRef, fs⟩ else st)

end Combine

namespace Combine

theorem assertReducerShape_some_of_bad (probe : String) :
    ∀ rs : List (String × SubReducer),
      (∃ e ∈ rs, e.2 none initAction = none ∨ e.2 none (probeAction probe) = none) →
      ∃ key r, (key, r) ∈ rs ∧
        ((r none initAction = none ∧
            assertReducerShape probe rs = some (undefinedInitMessage key))
          ∨ (r none (probeAction probe) = none ∧
            assertReducerShape probe rs = some (undefinedProbeMessage key)))
  | [], h => by simp at h
  | (key, reducer) :: rest, h => by
    by_cases h1 : reducer none initAction = none
    · exact ⟨key, reducer, List.mem_cons_self _ _,
        .inl ⟨h1, by simp [assertReducerShape, h1]⟩⟩
    · by_cases h2 : reducer none (probeAction probe) = none
      · exact ⟨key, reducer, List.mem_cons_self _ _,
          .inr ⟨h2, by simp [assertReducerShape, h1, h2]⟩⟩
      · obtain ⟨e, he, hbad⟩ := h
        rcases List.mem_cons.mp he with heq | he'
        · subst heq
          simp only at hbad
          rcases hbad with hb | hb
          · exact absurd hb h1
          · exact absurd hb h2
        · obtain ⟨k, r, hm, hc⟩ :=
            assertReducerShape_some_of_bad probe rest ⟨e, he', hbad⟩
          refine ⟨k, r, List.mem_cons_of_mem _ hm, ?_⟩
          simpa [assertReducerShape, h1, h2] using hc

/-- **C3**: for any reducer mapping containing a function entry whose reducer
returns the absent sentinel when probed with the private INIT action or with
the fresh unknown action type: `combineReducers` itself completes (the model
is a total function — the thrown assertion error is caught and stored), its
stored `shapeAssertionError` is the validation message naming an offending
key, and every invocation of the returned combined reducer — for every
state, action and allocation ids, hence including the first — raises exactly
that stored error. -/
theorem combineReducers_shape_error_deferred (probe : String)
    (reducers : List (String × RVal))
    (hbad : ∃ e ∈ reducers, ∃ r, e.2 = RVal.fn r ∧
        (r none initAction = none ∨ r none (probeAction probe) = none)) :
    ∃ key r msg,
      (key, RVal.fn r) ∈ reducers ∧
      ((r none initAction = none ∧ msg = undefinedInitMessage key)
        ∨ (r none (probeAction probe) = none ∧ msg = undefinedProbeMessage key)) ∧
      (combineReducers probe reducers).shapeAssertionError = some msg ∧
      (∀ dr nr state action,
        combination (combineReducers probe reducers) dr nr state action =
          .error msg) := by
  obtain ⟨e, he, r0, hfn, hr0⟩ := hbad
  have hmem0 : (e.1, r0) ∈ reducers.filterMap keepFn := by
    refine List.mem_filterMap.mpr ⟨e, he, ?_⟩
    obtain ⟨k, v⟩ := e
    simp only at hfn
    subst hfn
    rfl
  obtain ⟨key, r, hm, hc⟩ :=
    assertReducerShape_some_of_bad probe (reducers.filterMap keepFn)
      ⟨(e.1, r0), hmem0, hr0⟩
  have hmem : (key, RVal.fn r) ∈ reducers := by
    obtain ⟨a, ha, hka⟩ := List.mem_filterMap.mp hm
    obtain ⟨k, v⟩ := a
    cases v with
    | fn rr =>
      simp only [keepFn, Option.some.injEq, Prod.mk.injEq] at hka
      obtain ⟨rfl, rfl⟩ := hka
      exact ha
    | notFn p => simp [keepFn] at hka
  have hshape : (combineReducers probe reducers).shapeAssertionError =
      assertReducerShape probe (reducers.filterMap keepFn) := rfl
  rcases hc with ⟨hb, heq⟩ | ⟨hb, heq⟩
  · refine ⟨key, r, undefinedInitMessage key, hmem, .inl ⟨hb, rfl⟩, ?_, ?_⟩
    · rw [hshape, heq]
    · intro dr nr state action
      simp [combination, hshape, heq]
  · refine ⟨key, r, undefinedProbeMessage key, hmem, .inr ⟨hb, rfl⟩, ?_, ?_⟩
    · rw [hshape, heq]
    · intro dr nr state action
      simp [combination, hshape, heq]

end Combine

namespace Combine

theorem combinationLoop_ok (state : CRecord) (action : JSVal) :
    ∀ rs : List (String × SubReducer),
      (∀ e ∈ rs, (e.2 (state.get e.1) action).isSome) →
      combinationLoop state action rs =
        .ok (rs.map (fun e => (e.1, (e.2 (state.get e.1) action).getD 0)),
             rs.any (fun e => e.2 (state.get e.1) action != state.get e.1))
  | [], _ => rfl
  | (key, reducer) :: rest, hdefined => by
    have hhead := hdefined (key, reducer) (List.mem_cons_self _ _)
    obtain ⟨v, hv⟩ := Option.isSome_iff_exists.mp hhead
    have ih := combinationLoop_ok state action rest
      (fun e he => hdefined e (List.mem_cons_of_mem _ he))
    simp only at hv
    simp [combinationLoop, hv, ih, Bool.or_comm]

/-- **C1** (amended): for a combined reducer whose shape validation passed,
for every state record and every action *for which each sub-reducer's output
is defined*: if every sub-reducer's output is reference-equal (`===`) to its
previous slice of the state, the combined reducer returns the very same
state record it was given (same reference); if at least one output differs
by reference, it returns the freshly allocated record (reference `nextRef`)
mapping each retained key to its sub-reducer's output.  The definedness
proviso is what the counterexample `combination_stability_claim_cex` forces:
when a previous slice is `undefined` and its sub-reducer echoes `undefined`
(an output `===` the slice), the code throws instead of returning the same
reference. -/
theorem combination_referential_stability (c : Combined) (dr nr : Nat)
    (state : CRecord) (action : JSVal)
    (hok : c.shapeAssertionError = none)
    (hdefined : ∀ e ∈ c.finalReducers, (e.2 (state.get e.1) action).isSome) :
    ((∀ e ∈ c.finalReducers, e.2 (state.get e.1) action = state.get e.1) →
        combination c dr nr (some state) action = .ok state)
    ∧ ((∃ e ∈ c.finalReducers, e.2 (state.get e.1) action ≠ state.get e.1) →
        combination c dr nr (some state) action =
          .ok ⟨nr, c.finalReducers.map
                (fun e => (e.1, (e.2 (state.get e.1) action).getD 0))⟩) := by
  have hloop := combinationLoop_ok state action c.finalReducers hdefined
  constructor
  · intro hall
    have hany : c.finalReducers.any
        (fun e => e.2 (state.get e.1) action != state.get e.1) = false := by
      rw [List.any_eq_false]
      intro e he
      simp [hall e he]
    simp [combination, hok, hloop, hany]
  · intro hex
    obtain ⟨e, he, hne⟩ := hex
    have hany : c.finalReducers.any
        (fun e => e.2 (state.get e.1) action != state.get e.1) = true :=
      List.any_eq_true.mpr ⟨e, he, bne_iff_ne.mpr hne⟩
    simp [combination, hok, hloop, hany]

/-- The C1 counterexample sub-reducer: echoes a defined slice, seeds `7` on
`undefined` — except that for the action type `"CLEAR"` with an `undefined`
slice it returns `undefined` (legal under shape validation, which only
probes the INIT and fresh unknown types). -/
def cexReducer : SubReducer := fun s a =>
  match s with
  | some v => some v
  | none => if a.getField "type" = .str "CLEAR" then none else some 7

/-- A fixed probe string standing for the freshly generated unknown type. -/
def cexProbe : String := "@@redux/PROBE_UNKNOWN_ACTION.4.x.q"

/-- The C1 counterexample combined reducer, state (a record without the
key `"a"`, so the previous slice is `undefined`) and action. -/
def cexCombined : Combined := combineReducers cexProbe [("a", .fn cexReducer)]

/-- See `cexCombined`. -/
def cexState : CRecord := ⟨5, []⟩

/-- See `cexCombined`. -/
def cexAction : JSVal := mkTypeAction "CLEAR"

/-- **C1 counterexample**: shape validation passes, the single sub-reducer's
output is reference-equal (`===`) to its previous slice (both `undefined`),
yet the combined reducer throws the undefined-state error instead of
returning the very same state reference as the claim demands. -/
theorem combination_stability_claim_cex :
    cexCombined.shapeAssertionError = none
    ∧ cexReducer (cexState.get "a") cexAction = cexState.get "a"
    ∧ combination cexCombined 10 11 (some cexState) cexAction =
        .error (getUndefinedStateErrorMessage "a" cexAction) :=
  ⟨rfl, rfl, rfl⟩

/-- A shape-valid sub-reducer used by the C1 witness: identity on defined
slices, seeds `0` on `undefined`. -/
def stableReducer : SubReducer := fun s _ =>
  match s with
  | some v => some v
  | none => some 0

/-- The C1 witness combined reducer and state (the state has the key, so the
previous slice is defined and unchanged). -/
def stableCombined : Combined := combineReducers cexProbe [("b", .fn stableReducer)]

/-- See `stableCombined`. -/
def stableState : CRecord := ⟨5, [("b", 3)]⟩

theorem stableCombined_finalReducers :
    stableCombined.finalReducers = [("b", stableReducer)] := rfl

/-- Witness for C1: on a store whose single slice is unchanged by the action,
the combined reducer returns the very same state record. -/
theorem combination_referential_stability_witness :
    combination stableCombined 10 11 (some stableState) (mkTypeAction "T") =
      .ok stableState :=
  (combination_referential_stability stableCombined 10 11 stableState
      (mkTypeAction "T") rfl
      (by
        intro e he
        rw [stableCombined_finalReducers, List.mem_singleton] at he
        subst he
        rfl)).1
    (by
      intro e he
      rw [stableCombined_finalReducers, List.mem_singleton] at he
      subst he
      rfl)

end Combine

namespace Combine

theorem combinationLoop_error (state : CRecord) (action : JSVal) :
    ∀ (pre : List (String × SubReducer)) (key : String) (r : SubReducer)
      (post : List (String × SubReducer)),
      (∀ e ∈ pre, (e.2 (state.get e.1) action).isSome) →
      r (state.get key) action = none →
      combinationLoop state action (pre ++ (key, r) :: post) =
        .error (getUndefinedStateErrorMessage key action)
  | [], key, r, post, _, hbad => by
    simp [combinationLoop, hbad]
  | (k0, r0) :: pre, key, r, post, hpre, hbad => by
    have h0 := hpre (k0, r0) (List.mem_cons_self _ _)
    obtain ⟨v, hv⟩ := Option.isSome_iff_exists.mp h0
    simp only at hv
    have ih := combinationLoop_error state action pre key r post
      (fun e he => hpre e (List.mem_cons_of_mem _ he)) hbad
    simp [combinationLoop, hv, ih]

/-- **C8**: for a combined reducer whose shape validation passed, if during a
normal invocation the sub-reducer at some key is the first to return the
absent sentinel (all entries before it returning defined values), the
combined reducer raises exactly `getUndefinedStateErrorMessage key action`,
whose text names the offending key and quotes the action's type — or says
"an action" when the action or its `type` field is not a truthy value. -/
theorem combination_undefined_output_error (c : Combined) (dr nr : Nat)
    (state : CRecord) (action : JSVal)
    (hok : c.shapeAssertionError = none)
    (pre post : List (String × SubReducer)) (key : String) (r : SubReducer)
    (hsplit : c.finalReducers = pre ++ (key, r) :: post)
    (hpre : ∀ e ∈ pre, (e.2 (state.get e.1) action).isSome)
    (hbad : r (state.get key) action = none) :
    combination c dr nr (some state) action =
      .error (getUndefinedStateErrorMessage key action)
    ∧ (action.truthy = true → (JSVal.prim (action.getField "type")).truthy = true →
        getUndefinedStateErrorMessage key action =
          "Given " ++ ("action \"" ++ (action.getField "type").jsToString ++ "\"") ++
          ", reducer \"" ++ key ++ "\" returned undefined. " ++
          "To ignore an action, you must explicitly return the previous state. " ++
          "If you want this reducer to hold no value, you can return null instead of undefined.")
    ∧ (¬(action.truthy = true ∧ (JSVal.prim (action.getField "type")).truthy = true) →
        getUndefinedStateErrorMessage key action =
          "Given " ++ "an action" ++
          ", reducer \"" ++ key ++ "\" returned undefined. " ++
          "To ignore an action, you must explicitly return the previous state. " ++
          "If you want this reducer to hold no value, you can return null instead of undefined.") := by
  refine ⟨?_, ?_, ?_⟩
  · have hloop := combinationLoop_error state action pre key r post hpre hbad
    simp [combination, hok, hsplit, hloop]
  · intro h1 h2
    simp [getUndefinedStateErrorMessage, h1, h2, JSVal.jsToStringV]
  · intro h12
    by_cases h1 : action.truthy = true
    · have h2 : (JSVal.prim (action.getField "type")).truthy = false := by
        rcases Bool.eq_false_or_eq_true (JSVal.prim (action.getField "type")).truthy with h | h
        · exact absurd ⟨h1, h⟩ h12
        · exact h
      simp [getUndefinedStateErrorMessage, h1, h2]
    · have h1f : action.truthy = false := by
        rcases Bool.eq_false_or_eq_true action.truthy with h | h
        · exact absurd h h1
        · exact h
      simp [getUndefinedStateErrorMessage, h1f]

end Combine

namespace Combine

/-- The C8 witness combined reducer: a healthy first key and a second key
whose reducer returns `undefined` for the `"CLEAR"` action on an
`undefined` slice. -/
def c8Combined : Combined :=
  combineReducers cexProbe [("good", .fn stableReducer), ("bad", .fn cexReducer)]

/-- The C8 witness state: has the `"good"` slice, lacks the `"bad"` one. -/
def c8State : CRecord := ⟨5, [("good", 3)]⟩

/-- Witness for C8: the `"bad"` sub-reducer returns `undefined` for the
`"CLEAR"` action, and the combined reducer raises the message naming it. -/
theorem combination_undefined_output_error_witness :
    combination c8Combined 0 1 (some c8State) (mkTypeAction "CLEAR") =
      .error (getUndefinedStateErrorMessage "bad" (mkTypeAction "CLEAR")) :=
  (combination_undefined_output_error c8Combined 0 1 c8State
      (mkTypeAction "CLEAR") rfl [("good", stableReducer)] [] "bad" cexReducer
      rfl
      (by
        intro e he
        rw [List.mem_singleton] at he
        subst he
        rfl)
      rfl).1

/-- The C3 witness reducer: returns the absent sentinel for every input,
including the INIT probe. -/
def alwaysUndefined : SubReducer := fun _ _ => none

/-- The C3 witness mapping: a healthy entry followed by one whose reducer
fails initialization probing. -/
def c3Reducers : List (String × RVal) :=
  [("a", .fn stableReducer), ("b", .fn alwaysUndefined)]

/-- Witness for C3: the mapping `c3Reducers` contains an offending reducer,
so combination is built without throwing, stores a validation message naming
an offending key, and every invocation of the combined reducer raises it. -/
theorem combineReducers_shape_error_deferred_witness :
    ∃ key r msg,
      (key, RVal.fn r) ∈ c3Reducers ∧
      ((r none initAction = none ∧ msg = undefinedInitMessage key)
        ∨ (r none (probeAction cexProbe) = none ∧ msg = undefinedProbeMessage key)) ∧
      (combineReducers cexProbe c3Reducers).shapeAssertionError = some msg ∧
      (∀ dr nr state action,
        combination (combineReducers cexProbe c3Reducers) dr nr state action =
          .error msg) :=
  combineReducers_shape_error_deferred cexProbe c3Reducers
    ⟨("b", .fn alwaysUndefined),
      List.mem_cons_of_mem _ (List.mem_cons_self _ _),
      alwaysUndefined, rfl, .inl rfl⟩

end Combine

/-!
## `createStore.js` (the unnamed source file)

The store's closure variables are a `Store` record.  The two listener-array
variables hold *references*: the arrays themselves live in a small heap
(`listenerArrays`, indexed by reference id), so that the aliasing test
`nextListeners === currentListeners` in `ensureCanMutateNextListeners` and
the copy-on-write `slice()` are modelled by reference exactly as in the
source, and the notification loop reads the live array it captured from the
heap at every step.  Reducers are functions that may throw
(`Except String`); throwing store operations return the store next to the
`Except`, the store being unchanged on every throwing path of the source.
A listener body is a sequence of `subscribe`/`unsubscribe` commands (the
operations claim C2 quantifies over); each invocation of `dispatch` also
reports the invocation trace — the function ids of the listeners it called,
in order — as ghost instrumentation. -/

namespace RStore

/-- A command a listener body may perform on its store during the
notification loop: subscribe a listener function (by reference id), or make
a call to the unsubscribe closure returned by an earlier `subscribe`
(identified by its token, the index of that subscription in the store's
subscription log). -/
inductive LCmd where
  | subscribeCmd (f : Nat)
  | unsubscribeCmd (tok : Nat)

/-- Assigns to each listener function id the body it executes when the
notification loop invokes it. -/
def ListenerEnv := Nat → List LCmd

/-- The closure state of `createStore`. -/
structure Store where
  currentState : JSVal
  currentReducer : JSVal → JSVal → Except String JSVal
  listenerArrays : List (List Nat)
  currentListeners : Nat
  nextListeners : Nat
  subs : List (Nat × Bool)
  isDispatching : Bool

/-- Read the listener array with reference id `i` from the heap. -/
def Store.arr (st : Store) (i : Nat) : List Nat := st.listenerArrays.getD i []

/-- The two array references are valid heap indices. -/
def WF (st : Store) : Prop :=
  st.currentListeners < st.listenerArrays.length ∧
  st.nextListeners < st.listenerArrays.length

/-- `ensureCanMutateNextListeners()`: when `nextListeners` still aliases
`currentListeners`, clone it (`currentListeners.slice()`) into a freshly
allocated array and point `nextListeners` there. -/
def ensureCanMutateNextListeners (st : Store) : Store :=
  if st.nextListeners = st.currentListeners then
    { st with
        listenerArrays := st.listenerArrays ++ [st.arr st.currentListeners]
        nextListeners := st.listenerArrays.length }
  else st

/-- The re-entrancy message of `getState`. -/
def getStateDispatchingMessage : String :=
  "You may not call store.getState() while the reducer is executing. " ++
  "The reducer has already received the state as an argument. " ++
  "Pass it down from the top reducer instead of reading it from the store."

/-- `getState()`: rejected while the reducer is executing. -/
def getState (st : Store) : Except String JSVal :=
  if st.isDispatching then .error getStateDispatchingMessage
  else .ok st.currentState

/-- The re-entrancy message of `subscribe`. -/
def subscribeDispatchingMessage : String :=
  "You may not call store.subscribe() while the reducer is executing. " ++
  "If you would like to be notified after the store has been updated, subscribe from a " ++
  "component and invoke store.getState() in the callback to access the latest state. " ++
  "See https://redux.js.org/api-reference/store#subscribe(listener) for more details."

/-- `subscribe(listener)`: requires a function, is rejected while
dispatching, otherwise registers the listener on the pending list
(copy-on-write) and logs a subscription whose token stands for the returned
`unsubscribe` closure (capturing `listener` and `isSubscribed = true`). -/
def subscribe (st : Store) (listener : JSVal) : Store × Except String Nat :=
  match listener with
  | .func f =>
    if st.isDispatching then (st, .error subscribeDispatchingMessage)
    else
      let tok := st.subs.length
      let st1 := ensureCanMutateNextListeners st
      let st2 :=
        { st1 with
            listenerArrays :=
              st1.listenerArrays.set st1.nextListeners (st1.arr st1.nextListeners ++ [f])
            subs := st1.subs ++ [(f, true)] }
      (st2, .ok tok)
  | _ => (st, .error "Expected the listener to be a function.")

/-- The re-entrancy message of `unsubscribe`. -/
def unsubscribeDispatchingMessage : String :=
  "You may not unsubscribe from a store listener while the reducer is executing. " ++
  "See https://redux.js.org/api-reference/store#subscribe(listener) for more details."

/-- JavaScript `arr.indexOf(x)`: the first index, or `-1`. -/
def jsIndexOf (l : List Nat) (x : Nat) : Int :=
  match l.findIdx? (fun y => y == x) with
  | some i => (i : Int)
  | none => -1

/-- JavaScript `arr.splice(i, 1)` (the removal it performs): a negative
start counts from the end, clamped at `0`; at most one element is removed. -/
def jsSpliceRemoveOne (l : List Nat) (i : Int) : List Nat :=
  let len : Int := l.length
  let start : Nat := (if i < 0 then max (len + i) 0 else min i len).toNat
  l.take start ++ l.drop (start + 1)

/-- The mutating tail of a first, idle-time unsubscribe call: clear the
subscription's `isSubscribed` flag, then `ensureCanMutateNextListeners()`,
then `nextListeners.splice(nextListeners.indexOf(listener), 1)`. -/
def removeListener (st : Store) (tok : Nat) (f : Nat) : Store :=
  let st1 := { st with subs := st.subs.set tok (f, false) }
  let st2 := ensureCanMutateNextListeners st1
  let a := st2.arr st2.nextListeners
  { st2 with
      listenerArrays :=
        st2.listenerArrays.set st2.nextListeners
          (jsSpliceRemoveOne a (jsIndexOf a f)) }

/-- A call to the unsubscribe closure of subscription `tok`: no-op after the
first call (`isSubscribed` guard, checked *before* the re-entrancy guard),
rejected while dispatching, otherwise `removeListener`.  The error, if any,
is the second component; the source mutates nothing on any throwing path.
A `tok` that indexes no subscription corresponds to no closure in the
source and is a no-op. -/
def unsubscribe (st : Store) (tok : Nat) : Store × Option String :=
  match st.subs[tok]? with
  | none => (st, none)
  | some (f, isSub) =>
    if !isSub then (st, none)
    else if st.isDispatching then (st, some unsubscribeDispatchingMessage)
    else (removeListener st tok f, none)

/-- Run one listener-body command; an error is returned (it would propagate
out of the dispatch that invoked the listener). -/
def runCmd (st : Store) : LCmd → Store × Option String
  | .subscribeCmd f =>
    match subscribe st (.func f) with
    | (st1, .ok _) => (st1, none)
    | (st1, .error e) => (st1, some e)
  | .unsubscribeCmd tok => unsubscribe st tok

/-- Run a listener body, stopping at the first error. -/
def runCmds : Store → List LCmd → Store × Option String
  | st, [] => (st, none)
  | st, c :: cs =>
    match runCmd st c with
    | (st1, some e) => (st1, some e)
    | (st1, none) => runCmds st1 cs

/-- The notification loop
`for (let i = 0; i < listeners.length; i++) listeners[i]()`, reading the
live array object `listenersRef` from the heap at every step, exactly as
the source reads the array it captured.  `fuel` makes the model total;
`none` marks fuel exhaustion and is proved unreachable for well-formed
stores (the captured array never changes under the copy-on-write
discipline).  Also returns the invocation trace (function ids, in call
order) and the error the first throwing listener raised, if any. -/
def notifyLoop (env : ListenerEnv) (listenersRef : Nat) :
    Nat → Nat → Store → Option (Store × List Nat × Option String)
  | 0, i, st =>
    if i < (st.arr listenersRef).length then none else some (st, [], none)
  | fuel + 1, i, st =>
    if i < (st.arr listenersRef).length then
      match runCmds st (env ((st.arr listenersRef).getD i 0)) with
      | (st1, some e) => some (st1, [(st.arr listenersRef).getD i 0], some e)
      | (st1, none) =>
        match notifyLoop env listenersRef fuel (i + 1) st1 with
        | none => none
        | some (st2, tr, err) => some (st2, (st.arr listenersRef).getD i 0 :: tr, err)
    else some (st, [], none)

/-- `dispatch(action)`: the three validation guards, then
`try { isDispatching = true; currentState = currentReducer(currentState, action) }
finally { isDispatching = false }` — if the reducer throws, the assignment
never happened, the flag is back to false and the loop is not reached, so
the store is exactly as before and the error propagates — then
`const listeners = (currentListeners = nextListeners)`, the notification
loop over that captured array, and `return action`.  The middle component
is the ghost invocation trace. -/
def snapshotStore (st : Store) (next : JSVal) : Store :=
  { st with currentState := next, currentListeners := st.nextListeners }

/-- The tail of a successful reducer call inside `dispatch`: commit the new
state, capture `const listeners = (currentListeners = nextListeners)` (see
`snapshotStore`), and run the notification loop over the captured array. -/
def notifyPhase (env : ListenerEnv) (st : Store) (next : JSVal)
    (action : JSVal) : Store × List Nat × Except String JSVal :=
  match notifyLoop env (snapshotStore st next).currentListeners
      ((snapshotStore st next).arr (snapshotStore st next).currentListeners).length
      0 (snapshotStore st next) with
  | some (st3, tr, none) => (st3, tr, .ok action)
  | some (st3, tr, some e) => (st3, tr, .error e)
  | none => (snapshotStore st next, [], .error "model: notification fuel exhausted")

def dispatch (env : ListenerEnv) (st : Store) (action : JSVal) :
    Store × List Nat × Except String JSVal :=
  if !(isPlainObject action) then
    (st, [], .error ("Actions must be plain objects. " ++
      "Use custom middleware for async actions."))
  else if action.getField "type" = .undefinedV then
    (st, [], .error ("Actions may not have an undefined \"type\" property. " ++
      "Have you misspelled a constant?"))
  else if st.isDispatching then
    (st, [], .error "Reducers may not dispatch actions.")
  else
    match st.currentReducer st.currentState action with
    | .error e => (st, [], .error e)
    | .ok next => notifyPhase env st next action

/-- `createStore(reducer)` with no preloaded state and no enhancer:
initialize the closure variables (`currentState = undefined`, a single empty
listener array aliased by both references, an empty subscription log, not
dispatching) and dispatch the private INIT action before handing the store
out.  The non-function-reducer and enhancer paths concern arguments outside
this model (the reducer argument is a function by construction, no enhancer
is passed).  No listener can exist yet, so the environment is empty. -/
def createStore (reducer : JSVal → JSVal → Except String JSVal) :
    Store × List Nat × Except String JSVal :=
  let st : Store :=
    { currentState := .prim .undefinedV
      currentReducer := reducer
      listenerArrays := [[]]
      currentListeners := 0
      nextListeners := 0
      subs := []
      isDispatching := false }
  dispatch (fun _ => []) st Combine.initAction

end RStore

namespace RStore

theorem getD_append_lt (L : List (List Nat)) (x : List Nat) (i : Nat)
    (h : i < L.length) : (L ++ [x]).getD i [] = L.getD i [] := by
  rw [List.getD_eq_getElem?_getD, List.getD_eq_getElem?_getD,
    List.getElem?_append_left h]

theorem getD_set_ne (L : List (List Nat)) (j : Nat) (x : List Nat) (i : Nat)
    (h : j ≠ i) : (L.set j x).getD i [] = L.getD i [] := by
  rw [List.getD_eq_getElem?_getD, List.getD_eq_getElem?_getD,
    List.getElem?_set_ne h]

theorem ensure_currentListeners (st : Store) :
    (ensureCanMutateNextListeners st).currentListeners = st.currentListeners := by
  unfold ensureCanMutateNextListeners
  split <;> rfl

theorem ensure_isDispatching (st : Store) :
    (ensureCanMutateNextListeners st).isDispatching = st.isDispatching := by
  unfold ensureCanMutateNextListeners
  split <;> rfl

theorem ensure_subs (st : Store) :
    (ensureCanMutateNextListeners st).subs = st.subs := by
  unfold ensureCanMutateNextListeners
  split <;> rfl

theorem ensure_arr_lt (st : Store) (i : Nat) (h : i < st.listenerArrays.length) :
    (ensureCanMutateNextListeners st).arr i = st.arr i := by
  unfold ensureCanMutateNextListeners
  split
  · exact getD_append_lt _ _ _ h
  · rfl

theorem ensure_WF (st : Store) (h : WF st) : WF (ensureCanMutateNextListeners st) := by
  obtain ⟨h1, h2⟩ := h
  unfold ensureCanMutateNextListeners
  split
  · constructor
    · simp only [List.length_append, List.length_cons, List.length_nil]
      omega
    · simp only [List.length_append, List.length_cons, List.length_nil]
      omega
  · exact ⟨h1, h2⟩

theorem ensure_next_ne_current (st : Store) (h : WF st) :
    (ensureCanMutateNextListeners st).nextListeners ≠
      (ensureCanMutateNextListeners st).currentListeners := by
  by_cases hc : st.nextListeners = st.currentListeners
  · simp only [ensureCanMutateNextListeners, hc, if_pos]
    exact Nat.ne_of_gt h.1
  · simp only [ensureCanMutateNextListeners, if_neg hc]
    exact hc

theorem ensure_next_lt (st : Store) (h : WF st) :
    (ensureCanMutateNextListeners st).nextListeners <
      (ensureCanMutateNextListeners st).listenerArrays.length := (ensure_WF st h).2

/-- The invariant carried through the notification loop: the store is
well-formed, `currentListeners` is still the captured reference `c0`, the
array at `c0` still holds the snapshot contents `A0`, and the store is not
dispatching (dispatch resets the flag before notifying). -/
def LoopInv (c0 : Nat) (A0 : List Nat) (st : Store) : Prop :=
  WF st ∧ st.currentListeners = c0 ∧ st.arr c0 = A0 ∧ st.isDispatching = false

theorem subscribe_inv (c0 : Nat) (A0 : List Nat) (st : Store) (f : Nat)
    (h : LoopInv c0 A0 st) :
    LoopInv c0 A0 (subscribe st (.func f)).1 ∧
      (subscribe st (.func f)).2 = .ok st.subs.length := by
  obtain ⟨hwf, hc, ha, hd⟩ := h
  have hne : (ensureCanMutateNextListeners st).nextListeners ≠ c0 := by
    rw [← hc, ← ensure_currentListeners st]
    exact ensure_next_ne_current st hwf
  have hwf1 := ensure_WF st hwf
  refine ⟨⟨?_, ?_, ?_, ?_⟩, ?_⟩
  · simp only [subscribe, hd, if_neg Bool.false_ne_true]
    exact ⟨by simpa using hwf1.1, by simpa using hwf1.2⟩
  · simp only [subscribe, hd, if_neg Bool.false_ne_true]
    exact ensure_currentListeners st ▸ hc
  · simp only [subscribe, hd, if_neg Bool.false_ne_true, Store.arr]
    rw [getD_set_ne _ _ _ _ hne]
    rw [← hc, ← ensure_currentListeners st]
    have := ensure_arr_lt st st.currentListeners hwf.1
    rw [ensure_currentListeners st]
    calc (ensureCanMutateNextListeners st).listenerArrays.getD st.currentListeners []
        = (ensureCanMutateNextListeners st).arr st.currentListeners := rfl
      _ = st.arr st.currentListeners := ensure_arr_lt st st.currentListeners hwf.1
      _ = A0 := by rw [hc]; exact ha
  · simp only [subscribe, hd, if_neg Bool.false_ne_true]
    exact ensure_isDispatching st ▸ hd
  · simp only [subscribe, hd, if_neg Bool.false_ne_true]

end RStore

namespace RStore

theorem ensure_splice_inv (c0 : Nat) (A0 : List Nat) (st1 : Store) (f : Nat)
    (h : LoopInv c0 A0 st1) :
    LoopInv c0 A0
      { ensureCanMutateNextListeners st1 with
          listenerArrays :=
            (ensureCanMutateNextListeners st1).listenerArrays.set
              (ensureCanMutateNextListeners st1).nextListeners
              (jsSpliceRemoveOne
                ((ensureCanMutateNextListeners st1).arr
                  (ensureCanMutateNextListeners st1).nextListeners)
                (jsIndexOf
                  ((ensureCanMutateNextListeners st1).arr
                    (ensureCanMutateNextListeners st1).nextListeners) f)) } := by
  obtain ⟨hwf, hc, ha, hd⟩ := h
  have hne : (ensureCanMutateNextListeners st1).nextListeners ≠ c0 := by
    rw [← hc, ← ensure_currentListeners st1]
    exact ensure_next_ne_current st1 hwf
  have hwf2 := ensure_WF st1 hwf
  refine ⟨⟨by simpa using hwf2.1, by simpa using hwf2.2⟩, ?_, ?_, ?_⟩
  · show (ensureCanMutateNextListeners st1).currentListeners = c0
    rw [ensure_currentListeners st1]
    exact hc
  · show ((ensureCanMutateNextListeners st1).listenerArrays.set
        (ensureCanMutateNextListeners st1).nextListeners _).getD c0 [] = A0
    rw [getD_set_ne _ _ _ _ hne]
    show (ensureCanMutateNextListeners st1).arr c0 = A0
    rw [ensure_arr_lt st1 c0 (hc ▸ hwf.1)]
    exact ha
  · show (ensureCanMutateNextListeners st1).isDispatching = false
    rw [ensure_isDispatching st1]
    exact hd

theorem removeListener_inv (c0 : Nat) (A0 : List Nat) (st : Store) (tok f : Nat)
    (h : LoopInv c0 A0 st) : LoopInv c0 A0 (removeListener st tok f) :=
  ensure_splice_inv c0 A0 { st with subs := st.subs.set tok (f, false) } f
    ⟨h.1, h.2.1, h.2.2.1, h.2.2.2⟩

theorem unsubscribe_inv (c0 : Nat) (A0 : List Nat) (st : Store) (tok : Nat)
    (h : LoopInv c0 A0 st) :
    LoopInv c0 A0 (unsubscribe st tok).1 ∧ (unsubscribe st tok).2 = none := by
  obtain ⟨hwf, hc, ha, hd⟩ := h
  rcases hsub : st.subs[tok]? with _ | ⟨f, isSub⟩
  · have hres : unsubscribe st tok = (st, none) := by simp [unsubscribe, hsub]
    rw [hres]
    exact ⟨⟨hwf, hc, ha, hd⟩, rfl⟩
  · cases isSub with
    | false =>
      have hres : unsubscribe st tok = (st, none) := by simp [unsubscribe, hsub]
      rw [hres]
      exact ⟨⟨hwf, hc, ha, hd⟩, rfl⟩
    | true =>
      have hres : unsubscribe st tok = (removeListener st tok f, none) := by
        simp [unsubscribe, hsub, hd]
      rw [hres]
      exact ⟨removeListener_inv c0 A0 st tok f ⟨hwf, hc, ha, hd⟩, rfl⟩

theorem runCmd_inv (c0 : Nat) (A0 : List Nat) (st : Store) (c : LCmd)
    (h : LoopInv c0 A0 st) :
    LoopInv c0 A0 (runCmd st c).1 ∧ (runCmd st c).2 = none := by
  cases c with
  | subscribeCmd f =>
    obtain ⟨hinv, hok⟩ := subscribe_inv c0 A0 st f h
    rcases hr : subscribe st (.func f) with ⟨st1, r⟩
    rw [hr] at hinv hok
    have hok' : r = .ok st.subs.length := hok
    subst hok'
    have hinv' : LoopInv c0 A0 st1 := hinv
    constructor
    · show LoopInv c0 A0 (runCmd st (.subscribeCmd f)).1
      simp only [runCmd, hr]
      exact hinv'
    · simp [runCmd, hr]
  | unsubscribeCmd tok =>
    obtain ⟨hinv, hok⟩ := unsubscribe_inv c0 A0 st tok h
    rcases hr : unsubscribe st tok with ⟨st1, r⟩
    rw [hr] at hinv hok
    have hok' : r = none := hok
    subst hok'
    have hinv' : LoopInv c0 A0 st1 := hinv
    constructor
    · show LoopInv c0 A0 (runCmd st (.unsubscribeCmd tok)).1
      simp only [runCmd, hr]
      exact hinv'
    · simp [runCmd, hr]

theorem runCmds_inv (c0 : Nat) (A0 : List Nat) :
    ∀ (cs : List LCmd) (st : Store), LoopInv c0 A0 st →
      LoopInv c0 A0 (runCmds st cs).1 ∧ (runCmds st cs).2 = none
  | [], st, h => ⟨h, rfl⟩
  | c :: cs, st, h => by
    obtain ⟨hinv, hok⟩ := runCmd_inv c0 A0 st c h
    rcases hr : runCmd st c with ⟨st1, r⟩
    rw [hr] at hinv hok
    have hok' : r = none := hok
    subst hok'
    have hinv' : LoopInv c0 A0 st1 := hinv
    have ih := runCmds_inv c0 A0 cs st1 hinv'
    constructor
    · show LoopInv c0 A0 (runCmds st (c :: cs)).1
      simp only [runCmds, hr]
      exact ih.1
    · show (runCmds st (c :: cs)).2 = none
      simp only [runCmds, hr]
      exact ih.2

end RStore

namespace RStore

theorem notifyLoop_complete (env : ListenerEnv) (c0 : Nat) (A0 : List Nat) :
    ∀ (fuel i : Nat) (st : Store), LoopInv c0 A0 st → A0.length ≤ fuel + i →
      ∃ st', notifyLoop env c0 fuel i st = some (st', A0.drop i, none) ∧
        LoopInv c0 A0 st'
  | 0, i, st, h, hle => by
    have ha : st.arr c0 = A0 := h.2.2.1
    have hdrop : A0.drop i = [] := List.drop_eq_nil_of_le (by omega)
    refine ⟨st, ?_, h⟩
    simp only [notifyLoop, ha, hdrop]
    rw [if_neg (show ¬ i < A0.length by omega)]
  | fuel + 1, i, st, h, hle => by
    have ha : st.arr c0 = A0 := h.2.2.1
    by_cases hlt : i < A0.length
    · obtain ⟨hinv1, hok1⟩ := runCmds_inv c0 A0 (env (A0.getD i 0)) st h
      rcases hr : runCmds st (env (A0.getD i 0)) with ⟨st1, r⟩
      rw [hr] at hinv1 hok1
      have hr2 : r = none := hok1
      subst hr2
      have hinv1' : LoopInv c0 A0 st1 := hinv1
      obtain ⟨st2, hrec, hinv2⟩ :=
        notifyLoop_complete env c0 A0 fuel (i + 1) st1 hinv1' (by omega)
      refine ⟨st2, ?_, hinv2⟩
      have hdrop : A0.drop i = A0.getD i 0 :: A0.drop (i + 1) := by
        rw [List.drop_eq_getElem_cons hlt]
        congr 1
        rw [List.getD_eq_getElem?_getD, List.getElem?_eq_getElem hlt]
        rfl
      simp only [notifyLoop, ha]
      rw [if_pos hlt]
      simp only [hr]
      simp only [hrec]
      rw [hdrop]
    · have hdrop : A0.drop i = [] := List.drop_eq_nil_of_le (by omega)
      refine ⟨st, ?_, h⟩
      simp only [notifyLoop, ha, hdrop]
      rw [if_neg hlt]

theorem notifyPhase_ok (env : ListenerEnv) (st : Store) (next action : JSVal)
    (hwf : WF st) (hidle : st.isDispatching = false) :
    ∃ st', notifyPhase env st next action =
        (st', st.arr st.nextListeners, .ok action) ∧
      WF st' ∧ st'.isDispatching = false := by
  have hinv : LoopInv (snapshotStore st next).currentListeners
      ((snapshotStore st next).arr (snapshotStore st next).currentListeners)
      (snapshotStore st next) :=
    ⟨⟨hwf.2, hwf.2⟩, rfl, rfl, hidle⟩
  obtain ⟨st', hloop, hinv'⟩ :=
    notifyLoop_complete env (snapshotStore st next).currentListeners
      ((snapshotStore st next).arr (snapshotStore st next).currentListeners)
      ((snapshotStore st next).arr (snapshotStore st next).currentListeners).length
      0 (snapshotStore st next) hinv (by omega)
  refine ⟨st', ?_, hinv'.1, hinv'.2.2.2⟩
  simp only [notifyPhase]
  rw [hloop, List.drop_zero]
  rfl

theorem dispatch_ok_detail (env : ListenerEnv) (st : Store) (action : JSVal)
    (next : JSVal) (hwf : WF st)
    (hplain : isPlainObject action = true)
    (htype : action.getField "type" ≠ .undefinedV)
    (hidle : st.isDispatching = false)
    (hred : st.currentReducer st.currentState action = .ok next) :
    ∃ st', dispatch env st action = (st', st.arr st.nextListeners, .ok action) ∧
      WF st' ∧ st'.isDispatching = false := by
  obtain ⟨st', hph, hwf', hd'⟩ := notifyPhase_ok env st next action hwf hidle
  refine ⟨st', ?_, hwf', hd'⟩
  have hg1 : (!(isPlainObject action)) = false := by rw [hplain]; rfl
  simp only [dispatch, hg1, Bool.false_eq_true, if_false]
  rw [if_neg htype, if_neg (show ¬ st.isDispatching = true by rw [hidle]; exact
    Bool.false_ne_true)]
  simp only [hred]
  exact hph

end RStore

namespace RStore

/-- **C2**: for every well-formed store, every environment of listener
bodies (arbitrary sequences of subscribe/unsubscribe commands), and every
valid action the reducer accepts, dispatch invokes exactly the listeners of
the pending (`nextListeners`) list as it stood when the dispatch began —
each subscription exactly once, in registration order — *whatever* the
invoked listeners subscribe or unsubscribe; so mutations from inside the
loop never change which listeners the current dispatch invokes.  The
resulting store is again well-formed and idle, so this same statement
applied to it shows the next dispatch's snapshot is `st'.arr
st'.nextListeners` — the pending list as mutated by those commands, which is
where they take effect. -/
theorem dispatch_listener_snapshot (env : ListenerEnv) (st : Store)
    (action next : JSVal) (hwf : WF st)
    (hplain : isPlainObject action = true)
    (htype : action.getField "type" ≠ .undefinedV)
    (hidle : st.isDispatching = false)
    (hred : st.currentReducer st.currentState action = .ok next) :
    ∃ st', dispatch env st action = (st', st.arr st.nextListeners, .ok action) ∧
      WF st' ∧ st'.isDispatching = false :=
  dispatch_ok_detail env st action next hwf hplain htype hidle hred

/-- The C2 witness store: two subscriptions, listeners `7` and `8`, both
lists aliased, idle. -/
def c2Store : Store :=
  { currentState := .prim (.number 0)
    currentReducer := fun s _ => .ok s
    listenerArrays := [[7, 8]]
    currentListeners := 0
    nextListeners := 0
    subs := [(7, true), (8, true)]
    isDispatching := false }

/-- The C2 witness listener bodies: listener `7` unsubscribes subscription
`1` (listener `8`) and subscribes a new listener `9` during the loop. -/
def c2Env : ListenerEnv := fun f =>
  if f = 7 then [.unsubscribeCmd 1, .subscribeCmd 9] else []

/-- Witness for C2: although listener `7` unsubscribes listener `8` and
subscribes `9` during the dispatch, the invocation trace is the snapshot
`[7, 8]` taken when the dispatch began. -/
theorem dispatch_listener_snapshot_witness :
    ∃ st', dispatch c2Env c2Store (Combine.mkTypeAction "T") =
        (st', [7, 8], .ok (Combine.mkTypeAction "T")) ∧
      WF st' ∧ st'.isDispatching = false :=
  dispatch_listener_snapshot c2Env c2Store (Combine.mkTypeAction "T")
    (.prim (.number 0)) ⟨by decide, by decide⟩ rfl (by decide) rfl rfl

/-- **C5**: for a well-formed store whose current reducer never throws,
dispatch raises an error exactly when the action is not a plain record, or
its `type` field is the undefined sentinel, or the store is already
dispatching; when none of these hold it returns precisely the action value
it was given. -/
theorem dispatch_validation (env : ListenerEnv) (st : Store) (action : JSVal)
    (hwf : WF st)
    (hred : ∀ s a, ∃ v, st.currentReducer s a = .ok v) :
    ((∃ e, (dispatch env st action).2.2 = .error e) ↔
      (isPlainObject action = false ∨ action.getField "type" = .undefinedV ∨
        st.isDispatching = true))
    ∧ ((isPlainObject action = true ∧ action.getField "type" ≠ .undefinedV ∧
          st.isDispatching = false) →
        (dispatch env st action).2.2 = .ok action) := by
  cases hp : isPlainObject action with
  | false =>
    have hd : dispatch env st action =
        (st, [], .error ("Actions must be plain objects. " ++
          "Use custom middleware for async actions.")) := by
      simp [dispatch, hp]
    refine ⟨⟨fun _ => .inl rfl, fun _ => ⟨_, by rw [hd]⟩⟩, ?_⟩
    rintro ⟨h1, -, -⟩
    exact absurd h1 (by decide)
  | true =>
    by_cases ht : action.getField "type" = .undefinedV
    · have hd : dispatch env st action =
          (st, [], .error ("Actions may not have an undefined \"type\" property. " ++
            "Have you misspelled a constant?")) := by
        simp [dispatch, hp, ht]
      refine ⟨⟨fun _ => .inr (.inl ht), fun _ => ⟨_, by rw [hd]⟩⟩, ?_⟩
      rintro ⟨-, h2, -⟩
      exact absurd ht h2
    · cases hdisp : st.isDispatching with
      | true =>
        have hd : dispatch env st action =
            (st, [], .error "Reducers may not dispatch actions.") := by
          have hg1 : (!(isPlainObject action)) = false := by rw [hp]; rfl
          simp only [dispatch, hg1, Bool.false_eq_true, if_false]
          rw [if_neg ht, if_pos hdisp]
        refine ⟨⟨fun _ => .inr (.inr rfl), fun _ => ⟨_, by rw [hd]⟩⟩, ?_⟩
        rintro ⟨-, -, h3⟩
        exact absurd h3 (by decide)
      | false =>
        obtain ⟨next, hnext⟩ := hred st.currentState action
        obtain ⟨st', hd, -, -⟩ :=
          dispatch_ok_detail env st action next hwf hp ht hdisp hnext
        constructor
        · constructor
          · rintro ⟨e, he⟩
            rw [hd] at he
            simp at he
          · rintro (h | h | h)
            · exact absurd h (by decide)
            · exact absurd h ht
            · exact absurd h (by decide)
        · intro _
          rw [hd]
  
end RStore

namespace RStore

/-- The C5 witness store: an idle, well-formed store whose reducer is total
(the identity on states). -/
def demoStore : Store :=
  { currentState := .prim (.number 0)
    currentReducer := fun s _ => .ok s
    listenerArrays := [[]]
    currentListeners := 0
    nextListeners := 0
    subs := []
    isDispatching := false }

/-- Witness for C5: a plain-record action with a defined `type` dispatched
on an idle store raises nothing and is returned as given. -/
theorem dispatch_validation_witness :
    (dispatch (fun _ => []) demoStore (Combine.mkTypeAction "INC")).2.2 =
      .ok (Combine.mkTypeAction "INC") :=
  (dispatch_validation (fun _ => []) demoStore (Combine.mkTypeAction "INC")
      ⟨by decide, by decide⟩ (fun s _ => ⟨s, rfl⟩)).2
    ⟨rfl, by decide, rfl⟩

/-- **C6**: for every store and validated action, if the current reducer
throws, the dispatch returns the very same store (state reference-identical,
listener lists untouched, idle again thanks to the `finally`), invokes no
listener, and propagates exactly the reducer's error to the caller — so
subsequent `getState`, `subscribe` and `dispatch` calls behave as on the
pre-dispatch store. -/
theorem dispatch_reducer_error_atomic (env : ListenerEnv) (st : Store)
    (action : JSVal) (e : String)
    (hplain : isPlainObject action = true)
    (htype : action.getField "type" ≠ .undefinedV)
    (hidle : st.isDispatching = false)
    (hred : st.currentReducer st.currentState action = .error e) :
    dispatch env st action = (st, [], .error e) := by
  have hg1 : (!(isPlainObject action)) = false := by rw [hplain]; rfl
  simp only [dispatch, hg1, Bool.false_eq_true, if_false]
  rw [if_neg htype,
    if_neg (show ¬ st.isDispatching = true by rw [hidle]; exact (by decide))]
  simp only [hred]

/-- The C6 witness store: its reducer always throws `"boom"`. -/
def throwingStore : Store :=
  { currentState := .prim (.number 0)
    currentReducer := fun _ _ => .error "boom"
    listenerArrays := [[3]]
    currentListeners := 0
    nextListeners := 0
    subs := [(3, true)]
    isDispatching := false }

/-- Witness for C6: the reducer's error propagates, the store is returned
unchanged and no listener runs. -/
theorem dispatch_reducer_error_atomic_witness :
    dispatch (fun _ => []) throwingStore (Combine.mkTypeAction "T") =
      (throwingStore, [], .error "boom") :=
  dispatch_reducer_error_atomic (fun _ => []) throwingStore
    (Combine.mkTypeAction "T") "boom" rfl (by decide) rfl rfl

/-- **C7**: while the store is `Dispatching`, `getState`, `subscribe` (with a
callable listener) and the first call to a live unsubscribe closure all
raise their re-entrancy errors and mutate nothing; while it is idle,
`getState` returns the current state, `subscribe` succeeds with the next
subscription token, and a live unsubscribe closure's first call succeeds. -/
theorem reentrancy_guards (st : Store) (f tok fid : Nat) :
    (st.isDispatching = true →
      getState st = .error getStateDispatchingMessage
      ∧ subscribe st (.func f) = (st, .error subscribeDispatchingMessage)
      ∧ (st.subs[tok]? = some (fid, true) →
          unsubscribe st tok = (st, some unsubscribeDispatchingMessage)))
    ∧ (st.isDispatching = false →
      getState st = .ok st.currentState
      ∧ (subscribe st (.func f)).2 = .ok st.subs.length
      ∧ (st.subs[tok]? = some (fid, true) → (unsubscribe st tok).2 = none)) := by
  constructor
  · intro hd
    refine ⟨?_, ?_, ?_⟩
    · simp [getState, hd]
    · simp [subscribe, hd]
    · intro hsub
      simp [unsubscribe, hsub, hd]
  · intro hd
    refine ⟨?_, ?_, ?_⟩
    · simp [getState, hd]
    · simp [subscribe, hd]
    · intro hsub
      simp [unsubscribe, hsub, hd]

/-- The C7 witness store: caught in the middle of a reducer call, with one
live subscription of listener `3`. -/
def c7Store : Store :=
  { currentState := .prim (.number 0)
    currentReducer := fun s _ => .ok s
    listenerArrays := [[3]]
    currentListeners := 0
    nextListeners := 0
    subs := [(3, true)]
    isDispatching := true }

/-- Witness for C7: on a dispatching store all three operations raise their
re-entrancy errors and leave the store untouched. -/
theorem reentrancy_guards_witness :
    getState c7Store = .error getStateDispatchingMessage
    ∧ subscribe c7Store (.func 5) = (c7Store, .error subscribeDispatchingMessage)
    ∧ unsubscribe c7Store 0 = (c7Store, some unsubscribeDispatchingMessage) := by
  obtain ⟨h1, h2, h3⟩ := (reentrancy_guards c7Store 5 0 3).1 rfl
  exact ⟨h1, h2, h3 (by decide)⟩

/-- **C9**: `createStore(reducer)` with no preloaded state and no enhancer
performs one dispatch of the private INIT action before returning, so
`getState()` on the returned store yields exactly the reducer's output for
`(undefined, INIT_ACTION)`. -/
theorem createStore_initial_state (reducer : JSVal → JSVal → Except String JSVal)
    (v : JSVal) (hred : reducer (.prim .undefinedV) Combine.initAction = .ok v) :
    getState (createStore reducer).1 = .ok v := by
  have h1 : (!(isPlainObject Combine.initAction)) = false := rfl
  have h2 : ¬ (Combine.initAction.getField "type" = JSPrim.undefinedV) := by decide
  simp [createStore, dispatch, h1, h2, hred, notifyPhase, notifyLoop,
    snapshotStore, Store.arr, getState]

/-- Witness for C9: a reducer seeding `42` yields a store whose state reads
back as `42`. -/
theorem createStore_initial_state_witness :
    getState (createStore (fun _ _ => .ok (.prim (.number 42)))).1 =
      .ok (.prim (.number 42)) :=
  createStore_initial_state (fun _ _ => .ok (.prim (.number 42)))
    (.prim (.number 42)) rfl

end RStore

/-!
## `src/bindActionCreators.js`

Action creators are functions from an argument list to an action; `dispatch`
is an arbitrary function on values (the store's dispatch, or a middleware
wrapper returning anything).  The `typeof` dispatch the source performs on
its first argument — callable / non-null object / anything else — is the
`Creators` inductive. -/

namespace Bind

/-- An action creator: `(...args) => action`. -/
def ActionCreator := List JSVal → JSVal

/-- A value in the mapping passed to `bindActionCreators`: callable or not. -/
inductive CVal where
  | fn (f : ActionCreator)
  | notFn (v : JSPrim)

/-- The argument of `bindActionCreators` after the source's `typeof`
classification: a single callable, a non-null keyed record, or any other
value (`null` or a primitive — `typeof` neither `"function"` nor a
non-null `"object"`). -/
inductive Creators where
  | callable (f : ActionCreator)
  | record (entries : List (String × CVal))
  | other (v : JSPrim)

/-- `bindActionCreator(actionCreator, dispatch)`:
`function () { return dispatch(actionCreator.apply(this, arguments)) }`. -/
def bindActionCreator (actionCreator : ActionCreator)
    (dispatch : JSVal → JSVal) : ActionCreator :=
  fun args => dispatch (actionCreator args)

/-- `typeof` on the primitives that can reach the error message. -/
def typeofPrim : JSPrim → String
  | .undefinedV => "undefined"
  | .null => "object"
  | .boolean _ => "boolean"
  | .number _ => "number"
  | .str _ => "string"

/-- The message of the error thrown for a non-callable, non-record argument:
`actionCreators === null ? 'null' : typeof actionCreators` interpolated. -/
def invalidCreatorsMessage (v : JSPrim) : String :=
  "bindActionCreators expected an object or a function, instead received " ++
  (if v = .null then "null" else typeofPrim v) ++ ". " ++
  "Did you write \"import ActionCreators from\" instead of \"import * as ActionCreators from\"?"

/-- The result of `bindActionCreators`: a single bound callable, or the
record of bound callables. -/
inductive Bound where
  | fn (g : ActionCreator)
  | record (entries : List (String × ActionCreator))

/-- The `for` loop over `Object.keys(actionCreators)`: wrap each callable
entry, skip the rest. -/
def bindLoop (dispatch : JSVal → JSVal) :
    List (String × CVal) → List (String × ActionCreator)
  | [] => []
  | (key, .fn f) :: rest =>
    (key, bindActionCreator f dispatch) :: bindLoop dispatch rest
  | (_, .notFn _) :: rest => bindLoop dispatch rest

/-- `bindActionCreators(actionCreators, dispatch)`. -/
def bindActionCreators (actionCreators : Creators)
    (dispatch : JSVal → JSVal) : Except String Bound :=
  match actionCreators with
  | .callable f => .ok (.fn (bindActionCreator f dispatch))
  | .record entries => .ok (.record (bindLoop dispatch entries))
  | .other v => .error (invalidCreatorsMessage v)

/-- **C10**: a single callable is wrapped into a callable that feeds its
result to `dispatch` and returns dispatch's return value; a non-null record
maps to the record of its callable entries, each wrapped identically and in
the same key order, the non-callable entries dropped; any other argument
raises the invalid-argument error. -/
theorem bindActionCreators_spec (dispatch : JSVal → JSVal) (f : ActionCreator)
    (es : List (String × CVal)) (v : JSPrim) :
    (bindActionCreators (.callable f) dispatch =
        .ok (.fn (bindActionCreator f dispatch))
      ∧ ∀ args, bindActionCreator f dispatch args = dispatch (f args))
    ∧ bindActionCreators (.record es) dispatch =
        .ok (.record (es.filterMap (fun e =>
          match e.2 with
          | .fn g => some (e.1, bindActionCreator g dispatch)
          | .notFn _ => none)))
    ∧ bindActionCreators (.other v) dispatch =
        .error (invalidCreatorsMessage v) := by
  refine ⟨⟨rfl, fun _ => rfl⟩, ?_, rfl⟩
  simp only [bindActionCreators, Except.ok.injEq, Bound.record.injEq]
  induction es with
  | nil => rfl
  | cons e rest ih =>
    obtain ⟨k, val⟩ := e
    cases val with
    | fn g => simp [bindLoop, List.filterMap_cons, ih]
    | notFn p => simp [bindLoop, List.filterMap_cons, ih]

end Bind
